import Mathlib

/-!
Verification of the Git diff / goto-diff module (`src/git/diff.py`) against its
natural-language specification.  The Python code is shallowly embedded: every
string operation the code performs is modelled as an executable
Lean function over the character list of a `String`, asynchronous callback
chains are composed sequentially (single control thread, results of external
commands are inputs), and Python runtime exceptions (`TypeError`,
`AttributeError`) are modelled as explicit error values.
-/

namespace GitSpec

/-- Expect the literal character sequence `p` at the front of `s` and return the
remainder.  This models anchored literal matching and is the basis of the
Python `str.startswith` embedding. -/
def expectChars : List Char → List Char → Option (List Char)
  | [], s => some s
  | _ :: _, [] => none
  | p :: ps, c :: cs => if c = p then expectChars ps cs else none

/-- Python `s.startswith(pre)`. -/
def pyStartsWith (s pre : String) : Bool :=
  (expectChars pre.data s.data).isSome

/-- Python `s[n:]`. -/
def pyDrop (s : String) (n : Nat) : String :=
  String.mk (s.data.drop n)

/-- Drop trailing whitespace from a character list. -/
def rstripChars (l : List Char) : List Char :=
  (l.reverse.dropWhile Char.isWhitespace).reverse

/-- Python `s.rstrip()`. -/
def pyRstrip (s : String) : String :=
  String.mk (rstripChars s.data)

/-- Python `s.strip()`. -/
def pyStrip (s : String) : String :=
  String.mk (rstripChars (s.data.dropWhile Char.isWhitespace))

/-- Python `not s.strip()`: true iff every character of `s` is whitespace. -/
def pyStripEmpty (s : String) : Bool :=
  s.data.all Char.isWhitespace

/-- Split a character list at newline characters, keeping empty pieces
(Python `str.split` with a single-character separator). -/
def splitLinesC : List Char → List (List Char)
  | [] => [[]]
  | c :: cs =>
    if c = '\n' then [] :: splitLinesC cs
    else
      match splitLinesC cs with
      | [] => [[c]]
      | l :: ls => (c :: l) :: ls

/-- Python `text.split` at newlines, producing `String`s. -/
def pySplitLines (s : String) : List String :=
  (splitLinesC s.data).map String.mk

/-- Python truthiness of an optional string: `None` and the empty string are
falsy, every other string is truthy. -/
def pyTruthyOS : Option String → Bool
  | none => false
  | some s => !(s == "")

/-- posixpath.join of two components, as `os.path.join` computes it on POSIX:
an absolute second component wins; otherwise a separator is inserted unless the
first component is empty or already ends with one. -/
def osPathJoin (a b : String) : String :=
  if pyStartsWith b "/" then b
  else if a == "" then a ++ b
  else if a.data.getLast? = some '/' then a ++ b
  else a ++ "/" ++ b

/-- Python exceptions that the embedded code can raise. -/
inductive PyError where
  | typeError
  | attributeError
deriving DecidableEq

/-- Observable effects of the GitDiff command flow: external git commands and
display calls, in the order they are issued. -/
inductive Event where
  | command (args : List String)
  | panel (content : String)
  | scratch (title content : String)
deriving DecidableEq

/-- Arguments of the status query issued by `GitDiff.stage_untracked_files`. -/
def statusCommandArgs : List String :=
  ["git", "status", "-uall", "--porcelain"]

/-- Arguments of the staging command issued by
`GitDiff.stage_untracked_files_result`. -/
def addCommandArgs : List String :=
  ["git", "add", ".", "-N"]

/-- Arguments of the diff command built by `GitDiff.continue_diff`. -/
def diffCommandArgs (ignoreWhitespace : Bool) (fileName : String) : List String :=
  ["git", "diff", "--no-color"] ++
    (if ignoreWhitespace then ["--ignore-all-space", "--ignore-blank-lines"] else []) ++
    ["--", fileName]

/-- The untracked-path list computed by `GitDiff.stage_untracked_files_result`
from the porcelain status output: rstrip, split at newlines, keep lines
starting with `??`, drop the 3-character marker prefix. -/
def stagesOf (statusResult : String) : List String :=
  ((pySplitLines (pyRstrip statusResult)).filter (fun x => pyStartsWith x "??")).map
    (fun x => pyDrop x 3)

/-- `GitDiff.reset_untracked_files`.  The argument is the state of the
`empty_stages` attribute: `none` means the attribute was never assigned, in
which case reading it raises `AttributeError`. -/
def reset_untracked_files : Option (List String) → List Event × Option PyError
  | none => ([], some PyError.attributeError)
  | some es =>
    (if 0 < es.length then [Event.command (["git", "reset", "--quiet", "--"] ++ es)] else [],
      none)

/-- `GitDiff.diff_done` applied to the diff command output: on all-whitespace
output it shows the `No output` panel and returns at once; otherwise it
displays the diff (panel or scratch buffer) and then runs the unstage step. -/
def diff_done (diffPanel : Bool) (empty_stages : Option (List String)) (result : String) :
    List Event × Option PyError :=
  if pyStripEmpty result then ([Event.panel "No output"], none)
  else
    let disp := if diffPanel then [Event.panel result] else [Event.scratch "Git Diff" result]
    let r := reset_untracked_files empty_stages
    (disp ++ r.1, r.2)

/-- The complete `GitDiff` invocation, with the outputs of the external
commands supplied as inputs and the asynchronous callback chain composed
sequentially: `run` either starts the stage bracket (setting enabled) or goes
straight to `continue_diff`; `stage_untracked_files_result` only continues to
the diff when it staged a nonzero number of paths. -/
def gitDiffFlow (diffUntracked diffPanel ignoreWhitespace : Bool)
    (fileName statusResult diffResult : String) : List Event × Option PyError :=
  if diffUntracked then
    let stages := stagesOf statusResult
    if 0 < stages.length then
      let r := diff_done diffPanel (some stages) diffResult
      ([Event.command statusCommandArgs, Event.command addCommandArgs,
        Event.command (diffCommandArgs ignoreWhitespace fileName)] ++ r.1, r.2)
    else
      ([Event.command statusCommandArgs], none)
  else
    let r := diff_done diffPanel none diffResult
    ([Event.command (diffCommandArgs ignoreWhitespace fileName)] ++ r.1, r.2)

/-- Greedy run of decimal digits, as the regex fragment `(\d+)` consumes it
(digits are modelled as ASCII 0-9). -/
def takeDigits : List Char → List Char × List Char
  | [] => ([], [])
  | c :: cs =>
    if c.isDigit then (c :: (takeDigits cs).1, (takeDigits cs).2)
    else ([], c :: cs)

/-- Numeric value of a digit string, as Python `int` reads a captured group. -/
def digitsVal (ds : List Char) : Nat :=
  ds.foldl (fun n ch => n * 10 + (ch.toNat - 48)) 0

/-- The optional `(,(\d+))?` group of the hunk header pattern: consume a comma
followed by at least one digit, or consume nothing.  Consuming a comma not
followed by digits fails, exactly as the regex then fails on the mandatory
space that follows the group. -/
def optCommaDigits (s : List Char) : Option (List Char) :=
  match s with
  | [] => some []
  | c :: cs =>
    if c = ',' then
      if (takeDigits cs).1 = [] then none else some (takeDigits cs).2
    else some (c :: cs)

/-- `re.match` of the pattern `^@@ -(\d+)(,(\d+))? \+(\d+)(,(\d+))? @@.*` as
performed by `GitGotoDiff.run`, returning `int(group(4))` (the new-file start
line); `none` models a failed match. -/
def parseHunkHeader (s : List Char) : Option Nat :=
  (expectChars "@@ -".data s).bind fun r1 =>
    (if (takeDigits r1).1 = [] then none else optCommaDigits (takeDigits r1).2).bind fun r3 =>
      (expectChars " +".data r3).bind fun r4 =>
        (if (takeDigits r4).1 = [] then none
         else (optCommaDigits (takeDigits r4).2).bind fun r6 =>
          (expectChars " @@".data r6).bind fun _ =>
            some (digitsVal (takeDigits r4).1))

/-- Local state of the backward scan loop of `GitGotoDiff.run`: the Python
variables `self.file_name`, `hunk_line` and `line_offset`. -/
structure ScanState where
  file_name : Option String
  hunk_line : Option String
  line_offset : Nat
deriving DecidableEq

/-- Initial scan state: `file_name = None`, `hunk_line = None`,
`line_offset = 0`. -/
def initScan : ScanState :=
  { file_name := none, hunk_line := none, line_offset := 0 }

/-- The body of the backward scan loop for one line.  Returns the updated state
and whether the loop breaks (a `+++ b/` file marker was found). -/
def processLine (lineContent : String) (st : ScanState) : ScanState × Bool :=
  if pyStartsWith lineContent "@@" then
    (if st.hunk_line.isNone then { st with hunk_line := some lineContent } else st, false)
  else if pyStartsWith lineContent "+++ b/" then
    ({ st with file_name := some (pyStrip (pyDrop lineContent 6)) }, true)
  else if st.hunk_line.isNone && !(pyStartsWith lineContent "-") then
    ({ st with line_offset := st.line_offset + 1 }, false)
  else
    (st, false)

/-- The backward scan loop `while pt > 0`, expressed over line indices: the
loop starts at the cursor line index and walks upward; the guard `pt > 0`
means the line starting at text offset 0 (index 0) is never examined. -/
def scanFrom (lines : List String) : Nat → ScanState → ScanState
  | 0, st => st
  | j + 1, st =>
    let p := processLine (lines.getD (j + 1) "") st
    if p.2 then p.1 else scanFrom lines j p.1

/-- Index of the line containing character offset `beg` (Sublime `view.line`).
A point at the end of a line, before its newline, belongs to that line. -/
def lineIndexOf : List String → Nat → Nat
  | [], _ => 0
  | l :: ls, beg =>
    if beg ≤ l.length then 0 else lineIndexOf ls (beg - (l.length + 1)) + 1

/-- Character offset of the start of line `j`. -/
def lineStartOffset : List String → Nat → Nat
  | [], _ => 0
  | _ :: _, 0 => 0
  | l :: ls, j + 1 => l.length + 1 + lineStartOffset ls j

/-- The target line computed after the scan, when a hunk header was remembered
and parses: `int(hunk.group(4)) + line_offset - 1`. -/
def gotoTargetLine (lines : List String) (cursorLine : Nat) : Option Int :=
  let st := scanFrom lines cursorLine initScan
  match st.hunk_line with
  | none => none
  | some h =>
    match parseHunkHeader h.data with
    | none => none
    | some n => some ((n : Int) + (st.line_offset : Int) - 1)

/-- The caption of the base-directory input panel:
`"Enter base directory for file '%s':" % self.file_name`. -/
def captionFor (fileName : String) : String :=
  "Enter base directory for file \x27" ++ fileName ++ "\x27:"

/-- The value of the Python variable `git_root_dir` after the
`else: git_root_dir = ""` normalisation: the candidate base when truthy,
otherwise the empty string. -/
def candidateBase (gitRootDir : Option String) : String :=
  if pyTruthyOS gitRootDir then gitRootDir.getD "" else ""

/-- The value of `full_path_file_name`: the candidate base joined with the
diff-relative path when the base is truthy, otherwise the bare relative
path. -/
def composedFullPath (fileName : String) (gitRootDir : Option String) : String :=
  if pyTruthyOS gitRootDir then osPathJoin (gitRootDir.getD "") fileName else fileName

/-- Result of the path resolution step at the end of `GitGotoDiff.run`: either
the input panel is shown, or `on_path_confirmed` is invoked directly. -/
inductive ResolveOutcome where
  | promptR (caption prefill : String)
  | confirmedR (root : String)
deriving DecidableEq

/-- The path resolution step of `GitGotoDiff.run` (the `os.path.isfile` check
and the branch on it), with the filesystem supplied as a predicate. -/
def resolveStep (fileName : String) (gitRootDir : Option String)
    (isfile : String → Bool) : ResolveOutcome :=
  if isfile (composedFullPath fileName gitRootDir) then
    ResolveOutcome.confirmedR (candidateBase gitRootDir)
  else
    ResolveOutcome.promptR (captionFor fileName) (candidateBase gitRootDir)

/-- Result of `GitGotoDiff.on_path_confirmed`: the view settings after the
conditional write, whether a write happened, and the open request. -/
structure ConfirmResult where
  settings : String → Option String
  wrote : Bool
  openPath : String
  gotoLine : Int
  column : Int

/-- `GitGotoDiff.on_path_confirmed`: persist `git_root_dir` in the view
settings only when it differs from the stored value, then open the joined
path and seek to the saved line and column. -/
def on_path_confirmed (settings : String → Option String) (fileName : String)
    (gotoLine column : Int) (gitRootDir : String) : ConfirmResult :=
  if settings "git_root_dir" = some gitRootDir then
    { settings := settings, wrote := false,
      openPath := osPathJoin gitRootDir fileName,
      gotoLine := gotoLine, column := column }
  else
    { settings := fun k => if k = "git_root_dir" then some gitRootDir else settings k,
      wrote := true,
      openPath := osPathJoin gitRootDir fileName,
      gotoLine := gotoLine, column := column }

/-- Outcome of `GitGotoDiff.run` when it terminates without an exception. -/
inductive GotoOutcome where
  | notApplicable
  | noHunkInfo
  | prompt (caption prefill fileName : String) (gotoLine column : Int)
  | confirmed (root fileName : String) (gotoLine column : Int)
deriving DecidableEq

/-- `GitGotoDiff.run`: scope gate, column computation, backward scan, hunk
header parse, and path resolution.  `beg` is the cursor character offset;
`scopeIns`/`scopeDel` state whether the host reports `markup.inserted.diff` /
`markup.deleted.diff` at the cursor; `storedRoot` is the `git_root_dir` view
setting; `windowRoot` is the repository root discovered from the window
folder.  Passing `None` where Python expects a string raises `TypeError`. -/
def gotoRun (text : String) (beg : Nat) (scopeIns scopeDel : Bool)
    (storedRoot windowRoot : Option String) (isfile : String → Bool) :
    Except PyError GotoOutcome :=
  if !scopeIns && !scopeDel then Except.ok GotoOutcome.notApplicable
  else
    let lines := pySplitLines text
    let j := lineIndexOf lines beg
    let column : Int := (beg : Int) - (lineStartOffset lines j : Int) - 1
    let st := scanFrom lines j initScan
    match st.hunk_line with
    | none => Except.error PyError.typeError
    | some h =>
      match parseHunkHeader h.data with
      | none => Except.ok GotoOutcome.noHunkInfo
      | some n =>
        let gotoLine : Int := (n : Int) + (st.line_offset : Int) - 1
        let gitRootDir : Option String :=
          if pyTruthyOS storedRoot then storedRoot else windowRoot
        match st.file_name with
        | none => Except.error PyError.typeError
        | some fname =>
          match resolveStep fname gitRootDir isfile with
          | ResolveOutcome.confirmedR root =>
            Except.ok (GotoOutcome.confirmed root fname gotoLine column)
          | ResolveOutcome.promptR cap pre =>
            Except.ok (GotoOutcome.prompt cap pre fname gotoLine column)

/-- Declarative reading of the optional regex group `(,(\d+))?`: either absent
or a comma followed by a nonempty digit string. -/
def OptCommaForm (b : List Char) : Prop :=
  b = [] ∨ ∃ ds, ds ≠ [] ∧ (∀ ch ∈ ds, ch.isDigit = true) ∧ b = ',' :: ds

/-- Declarative reading of the full hunk header pattern
`^@@ -(\d+)(,(\d+))? \+(\d+)(,(\d+))? @@` with arbitrary trailing content,
together with the value of group 4 (the new-file start line). -/
def HunkHeaderForm (s : List Char) (n : Nat) : Prop :=
  ∃ a b c d e,
    a ≠ [] ∧ (∀ ch ∈ a, ch.isDigit = true) ∧ OptCommaForm b ∧
    c ≠ [] ∧ (∀ ch ∈ c, ch.isDigit = true) ∧ OptCommaForm d ∧
    s = "@@ -".data ++ a ++ b ++ " +".data ++ c ++ d ++ " @@".data ++ e ∧
    n = digitsVal c

theorem expectChars_append (p r : List Char) : expectChars p (p ++ r) = some r := by
  induction p with
  | nil => rfl
  | cons c cs ih => simp [expectChars, ih]

theorem expectChars_eq_some (p : List Char) :
    ∀ s r : List Char, expectChars p s = some r → s = p ++ r := by
  induction p with
  | nil =>
    intro s r h
    simp only [expectChars, Option.some.injEq] at h
    simp [h]
  | cons c cs ih =>
    intro s r h
    cases s with
    | nil => simp [expectChars] at h
    | cons d ds =>
      simp only [expectChars] at h
      by_cases hd : d = c
      · subst hd
        rw [if_pos rfl] at h
        simpa using ih ds r h
      · rw [if_neg hd] at h
        exact absurd h (by simp)

theorem takeDigits_append (a r : List Char) (ha : ∀ ch ∈ a, ch.isDigit = true)
    (hr : ∀ ch, r.head? = some ch → ch.isDigit = false) :
    takeDigits (a ++ r) = (a, r) := by
  induction a with
  | nil =>
    cases r with
    | nil => rfl
    | cons c cs => simp [takeDigits, hr c rfl]
  | cons c cs ih =>
    have hc : c.isDigit = true := ha c (List.mem_cons_self c cs)
    have ih2 : takeDigits (cs ++ r) = (cs, r) :=
      ih (fun ch hch => ha ch (List.mem_cons_of_mem c hch))
    simp [takeDigits, hc, ih2]

theorem takeDigits_spec : ∀ (s ds r : List Char), takeDigits s = (ds, r) →
    s = ds ++ r ∧ (∀ ch ∈ ds, ch.isDigit = true) := by
  intro s
  induction s with
  | nil =>
    intro ds r h
    simp only [takeDigits, Prod.mk.injEq] at h
    obtain ⟨h1, h2⟩ := h
    subst h1; subst h2
    exact ⟨rfl, by simp⟩
  | cons c cs ih =>
    intro ds r h
    rcases htd : takeDigits cs with ⟨ds2, r2⟩
    cases hc : c.isDigit with
    | true =>
      simp only [takeDigits, htd, hc, if_true, Prod.mk.injEq] at h
      obtain ⟨h1, h2⟩ := h
      subst h1; subst h2
      obtain ⟨he, hdg⟩ := ih ds2 r2 htd
      refine ⟨by simp [he], ?_⟩
      intro ch hch
      rcases List.mem_cons.mp hch with h3 | h3
      · subst h3; exact hc
      · exact hdg ch h3
    | false =>
      simp only [takeDigits, hc, Bool.false_eq_true, if_false, Prod.mk.injEq] at h
      obtain ⟨h1, h2⟩ := h
      subst h1; subst h2
      exact ⟨rfl, by simp⟩

theorem optCommaDigits_of_head_space (b rest : List Char) (hb : OptCommaForm b)
    (hrest : rest.head? = some ' ') :
    optCommaDigits (b ++ rest) = some rest := by
  rcases hb with rfl | ⟨ds, hne, hdg, rfl⟩
  · cases rest with
    | nil => simp at hrest
    | cons c cs =>
      simp only [List.head?_cons, Option.some.injEq] at hrest
      subst hrest
      simp [optCommaDigits]
  · have hnd : ∀ ch, rest.head? = some ch → ch.isDigit = false := by
      intro ch hch
      rw [hrest] at hch
      obtain rfl : ' ' = ch := Option.some.inj hch
      decide
    simp only [List.cons_append, optCommaDigits, if_pos rfl]
    rw [takeDigits_append ds rest hdg hnd]
    simp [hne]

theorem optCommaForm_head_not_digit (b rest : List Char) (hb : OptCommaForm b)
    (hrest : rest.head? = some ' ') :
    ∀ ch, (b ++ rest).head? = some ch → ch.isDigit = false := by
  intro ch hch
  rcases hb with rfl | ⟨ds, _, _, rfl⟩
  · rw [List.nil_append, hrest] at hch
    obtain rfl : ' ' = ch := Option.some.inj hch
    decide
  · rw [List.cons_append, List.head?_cons] at hch
    obtain rfl : ',' = ch := Option.some.inj hch
    decide

theorem optCommaDigits_spec (s r : List Char) (h : optCommaDigits s = some r) :
    ∃ b, OptCommaForm b ∧ s = b ++ r := by
  cases s with
  | nil =>
    simp only [optCommaDigits, Option.some.injEq] at h
    exact ⟨[], Or.inl rfl, by simp [h]⟩
  | cons c cs =>
    by_cases hc : c = ','
    · subst hc
      rcases htd : takeDigits cs with ⟨ds, r2⟩
      simp only [optCommaDigits, if_pos rfl, htd] at h
      by_cases hds : ds = []
      · simp [hds] at h
      · rw [if_neg hds] at h
        obtain rfl : r2 = r := Option.some.inj h
        obtain ⟨he, hdg⟩ := takeDigits_spec cs ds r2 htd
        exact ⟨',' :: ds, Or.inr ⟨ds, hds, hdg, rfl⟩, by simp [he]⟩
    · simp only [optCommaDigits, if_neg hc, Option.some.injEq] at h
      exact ⟨[], Or.inl rfl, by simp [h]⟩

/-- Claim C7: the hunk header parse of `GitGotoDiff.run` succeeds exactly on
the lines matching `^@@ -(\d+)(,(\d+))? \+(\d+)(,(\d+))? @@` with arbitrary
trailing content, and then returns precisely the first number after `+`
(group 4); omitted `,len` groups do not affect that value, and every
non-matching line yields a parse failure, never a partial result. -/
theorem c7_hunk_header (s : List Char) (n : Nat) :
    parseHunkHeader s = some n ↔ HunkHeaderForm s n := by
  constructor
  · intro h
    unfold parseHunkHeader at h
    cases h1 : expectChars "@@ -".data s with
    | none => rw [h1] at h; simp at h
    | some r1 =>
      rw [h1, Option.some_bind] at h
      rcases ht1 : takeDigits r1 with ⟨a, r2⟩
      rw [ht1] at h
      by_cases ha : a = []
      · simp [ha] at h
      · rw [if_neg ha] at h
        cases h2 : optCommaDigits r2 with
        | none => rw [h2] at h; simp at h
        | some r3 =>
          rw [h2, Option.some_bind] at h
          cases h3 : expectChars " +".data r3 with
          | none => rw [h3] at h; simp at h
          | some r4 =>
            rw [h3, Option.some_bind] at h
            rcases ht2 : takeDigits r4 with ⟨c, r5⟩
            rw [ht2] at h
            by_cases hc : c = []
            · simp [hc] at h
            · rw [if_neg hc] at h
              cases h4 : optCommaDigits r5 with
              | none => rw [h4] at h; simp at h
              | some r6 =>
                rw [h4, Option.some_bind] at h
                cases h5 : expectChars " @@".data r6 with
                | none => rw [h5] at h; simp at h
                | some e =>
                  rw [h5, Option.some_bind] at h
                  obtain rfl : digitsVal c = n := Option.some.inj h
                  obtain ⟨hq1, hdg1⟩ := takeDigits_spec r1 a r2 ht1
                  obtain ⟨b, hbf, hq2⟩ := optCommaDigits_spec r2 r3 h2
                  obtain ⟨hq4, hdg2⟩ := takeDigits_spec r4 c r5 ht2
                  obtain ⟨d, hdf, hq5⟩ := optCommaDigits_spec r5 r6 h4
                  refine ⟨a, b, c, d, e, ha, hdg1, hbf, hc, hdg2, hdf, ?_, rfl⟩
                  rw [expectChars_eq_some _ s r1 h1, hq1, hq2,
                    expectChars_eq_some _ r3 r4 h3, hq4, hq5,
                    expectChars_eq_some _ r6 e h5]
                  simp [List.append_assoc]
  · rintro ⟨a, b, c, d, e, ha1, ha2, hb, hc1, hc2, hd, rfl, rfl⟩
    have hsp : ∀ X : List Char, (" +".data ++ X).head? = some ' ' := fun _ => rfl
    have hsp2 : ∀ X : List Char, (" @@".data ++ X).head? = some ' ' := fun _ => rfl
    have ht1 : takeDigits (a ++ (b ++ (" +".data ++ (c ++ (d ++ (" @@".data ++ e)))))) =
        (a, b ++ (" +".data ++ (c ++ (d ++ (" @@".data ++ e))))) :=
      takeDigits_append _ _ ha2 (optCommaForm_head_not_digit b _ hb (hsp _))
    have ht2 : takeDigits (c ++ (d ++ (" @@".data ++ e))) =
        (c, d ++ (" @@".data ++ e)) :=
      takeDigits_append _ _ hc2 (optCommaForm_head_not_digit d _ hd (hsp2 _))
    have ho1 : optCommaDigits (b ++ (" +".data ++ (c ++ (d ++ (" @@".data ++ e))))) =
        some (" +".data ++ (c ++ (d ++ (" @@".data ++ e)))) :=
      optCommaDigits_of_head_space b _ hb (hsp _)
    have ho2 : optCommaDigits (d ++ (" @@".data ++ e)) = some (" @@".data ++ e) :=
      optCommaDigits_of_head_space d _ hd (hsp2 _)
    have hshape : "@@ -".data ++ a ++ b ++ " +".data ++ c ++ d ++ " @@".data ++ e =
        "@@ -".data ++ (a ++ (b ++ (" +".data ++ (c ++ (d ++ (" @@".data ++ e)))))) := by
      simp [List.append_assoc]
    rw [hshape]
    unfold parseHunkHeader
    rw [expectChars_append, Option.some_bind, ht1]
    simp only [if_neg ha1]
    rw [ho1, Option.some_bind, expectChars_append, Option.some_bind, ht2]
    simp only [if_neg hc1]
    rw [ho2, Option.some_bind, expectChars_append, Option.some_bind]

/-- Witness for C7 at a concrete header line with both optional length groups
present and trailing content after the closing marker. -/
theorem c7_hunk_header_witness : parseHunkHeader "@@ -10,2 +10,3 @@ hd".data = some 10 :=
  (c7_hunk_header "@@ -10,2 +10,3 @@ hd".data 10).mpr
    ⟨['1', '0'], [',', '2'], ['1', '0'], [',', '3'], [' ', 'h', 'd'],
      by decide, by decide, Or.inr ⟨['2'], by decide, by decide, rfl⟩,
      by decide, by decide, Or.inr ⟨['3'], by decide, by decide, rfl⟩,
      by decide, by decide⟩

theorem processLine_preserve (content : String) (st : ScanState) (hl : String)
    (h : st.hunk_line = some hl) :
    (processLine content st).1.hunk_line = some hl ∧
    (processLine content st).1.line_offset = st.line_offset := by
  unfold processLine
  have hn : st.hunk_line.isNone = false := by rw [h]; rfl
  by_cases h1 : pyStartsWith content "@@"
  · simp [h1, hn, h]
  · by_cases h2 : pyStartsWith content "+++ b/"
    · simp [h1, h2, h]
    · simp [h1, h2, hn, h]

theorem scanFrom_preserve (lines : List String) (hl : String) :
    ∀ (j : Nat) (st : ScanState), st.hunk_line = some hl →
      (scanFrom lines j st).hunk_line = some hl ∧
      (scanFrom lines j st).line_offset = st.line_offset := by
  intro j
  induction j with
  | zero => intro st h; exact ⟨h, rfl⟩
  | succ j ih =>
    intro st h
    have hpres := processLine_preserve (lines.getD (j + 1) "") st hl h
    have hred : scanFrom lines (j + 1) st =
        if (processLine (lines.getD (j + 1) "") st).2 then
          (processLine (lines.getD (j + 1) "") st).1
        else scanFrom lines j (processLine (lines.getD (j + 1) "") st).1 := rfl
    cases hb : (processLine (lines.getD (j + 1) "") st).2 with
    | true =>
      rw [hred, if_pos hb]
      exact hpres
    | false =>
      rw [hred, if_neg (by intro hcontra; rw [hb] at hcontra; exact Bool.false_ne_true hcontra)]
      obtain ⟨ha, hoff⟩ := ih (processLine (lines.getD (j + 1) "") st).1 hpres.1
      exact ⟨ha, by rw [hoff, hpres.2]⟩

/-- Claim C4 (amended): with the cursor on the first Added line directly below
the hunk header, the backward scan of `GitGotoDiff.run` starts at the cursor
line itself, so that line is counted and `line_offset = 1`, and the computed
target is `new_start + line_offset - 1 = new_start`.  The cursor line is at
index `j + 2` so that the header line above it is reachable by the scan,
which never examines the first line of the text. -/
theorem c4_first_added_line (lines : List String) (j : Nat) (n : Nat)
    (_hplus : pyStartsWith (lines.getD (j + 2) "") "+" = true)
    (hnoth : pyStartsWith (lines.getD (j + 2) "") "@@" = false)
    (hnotm : pyStartsWith (lines.getD (j + 2) "") "+++ b/" = false)
    (hnotr : pyStartsWith (lines.getD (j + 2) "") "-" = false)
    (hheader : pyStartsWith (lines.getD (j + 1) "") "@@" = true)
    (hparse : parseHunkHeader (lines.getD (j + 1) "").data = some n) :
    (scanFrom lines (j + 2) initScan).line_offset = 1 ∧
    gotoTargetLine lines (j + 2) = some (n : Int) := by
  have step1 : ∀ content : String, pyStartsWith content "@@" = false →
      pyStartsWith content "+++ b/" = false → pyStartsWith content "-" = false →
      processLine content initScan =
        ({ file_name := none, hunk_line := none, line_offset := 1 }, false) := by
    intro content h1 h2 h3
    unfold processLine initScan
    simp [h1, h2, h3]
  have step2 : ∀ content : String, pyStartsWith content "@@" = true →
      processLine content { file_name := none, hunk_line := none, line_offset := 1 } =
        ({ file_name := none, hunk_line := some content, line_offset := 1 }, false) := by
    intro content h1
    unfold processLine
    simp [h1]
  have e1 : scanFrom lines (j + 2) initScan =
      if (processLine (lines.getD (j + 2) "") initScan).2 then
        (processLine (lines.getD (j + 2) "") initScan).1
      else scanFrom lines (j + 1) (processLine (lines.getD (j + 2) "") initScan).1 := rfl
  have e2 : ∀ st : ScanState, scanFrom lines (j + 1) st =
      if (processLine (lines.getD (j + 1) "") st).2 then
        (processLine (lines.getD (j + 1) "") st).1
      else scanFrom lines j (processLine (lines.getD (j + 1) "") st).1 := fun _ => rfl
  have hscan : scanFrom lines (j + 2) initScan = scanFrom lines j
      { file_name := none, hunk_line := some (lines.getD (j + 1) ""),
        line_offset := 1 } := by
    rw [e1, step1 (lines.getD (j + 2) "") hnoth hnotm hnotr]
    simp only [if_neg Bool.false_ne_true]
    rw [e2, step2 (lines.getD (j + 1) "") hheader]
    simp only [if_neg Bool.false_ne_true]
  have hpres := scanFrom_preserve lines (lines.getD (j + 1) "") j
      { file_name := none, hunk_line := some (lines.getD (j + 1) ""),
        line_offset := 1 } rfl
  constructor
  · rw [hscan]; exact hpres.2
  · simp only [gotoTargetLine]
    rw [hscan, hpres.1]
    simp only [hparse, hpres.2]
    simp

/-- Witness for C4 (amended): concrete diff lines with the cursor on the
first Added line directly below the header `@@ -1,3 +1,4 @@`. -/
theorem c4_first_added_line_witness :
    (scanFrom ["x", "+++ b/f", "@@ -1,3 +1,4 @@", "+x", "+y", " z", "-w"] 3
      initScan).line_offset = 1 ∧
    gotoTargetLine ["x", "+++ b/f", "@@ -1,3 +1,4 @@", "+x", "+y", " z", "-w"] 3 =
      some (1 : Int) :=
  c4_first_added_line ["x", "+++ b/f", "@@ -1,3 +1,4 @@", "+x", "+y", " z", "-w"] 1 1
    (by decide) (by decide) (by decide) (by decide) (by decide) (by decide)

/-- Counterexample for C4 as stated: on the synthetic diff of the claim (with
a marker and a leading line above the header so the scan can see them), the
cursor on the first Added line `+x` below `@@ -1,3 +1,4 @@` yields
`line_offset = 1`, not 0, and a target line of `new_start = 1`, not
`new_start - 1 = 0`. -/
theorem c4_counterexample :
    (scanFrom ["x", "+++ b/f", "@@ -1,3 +1,4 @@", "+x", "+y", " z", "-w"] 3
      initScan).line_offset ≠ 0 ∧
    gotoTargetLine ["x", "+++ b/f", "@@ -1,3 +1,4 @@", "+x", "+y", " z", "-w"] 3 ≠
      some (0 : Int) := by
  constructor
  · decide
  · intro h
    have : (1 : Int) = 0 := by
      have h2 : gotoTargetLine ["x", "+++ b/f", "@@ -1,3 +1,4 @@", "+x", "+y", " z", "-w"] 3 =
          some (1 : Int) := rfl
      rw [h2] at h
      exact Option.some.inj h
    exact absurd this (by decide)

/-- Claim C1: refuted by the code.  With untracked staging enabled and one
staged untracked path `foo.txt`, an empty diff output makes `diff_done` show
the `No output` panel and return immediately: the trace contains no
`git reset` command at all, so the staged state leaks. -/
theorem c1_empty_output_skips_unstage :
    gitDiffFlow true false false "f.py" "?? foo.txt" "" =
      ([Event.command statusCommandArgs, Event.command addCommandArgs,
        Event.command (diffCommandArgs false "f.py"), Event.panel "No output"], none) := by
  decide

/-- Claim C2: refuted by the code.  With untracked staging enabled and a
status result containing zero `??` entries, `stage_untracked_files_result`
issues no staging command and never invokes `continue_diff`: the trace stops
after the status query, so no diff command is issued and nothing is
displayed. -/
theorem c2_zero_untracked_dead_end :
    gitDiffFlow true false false "f.py" " M a.py" "some diff output" =
      ([Event.command statusCommandArgs], none) := by
  decide

/-- Claim C10: refuted by the code.  On a first invocation with
`diff_untracked_files` disabled, `empty_stages` is never assigned; with
non-empty diff output, `diff_done` displays the diff and then
`reset_untracked_files` raises `AttributeError` instead of acting as a
no-op. -/
theorem c10_attribute_error :
    gitDiffFlow false false false "f.py" "" "diff text" =
      ([Event.command (diffCommandArgs false "f.py"), Event.scratch "Git Diff" "diff text"],
        some PyError.attributeError) := by
  decide

/-- Claim C3: on the diff text containing `+++ b/src/foo.txt` followed by the
hunk `@@ -10,2 +10,3 @@`, the context line and the added line, a navigation
with the cursor at the start of the content of `+added` (offset 64, scope
inserted) resolves file path `src/foo.txt`, target line 11 and column 0. -/
theorem c3_end_to_end_navigation :
    gotoRun "--- a/src/foo.txt\n+++ b/src/foo.txt\n@@ -10,2 +10,3 @@\n context\n+added\n"
        64 true false (some "/repo") none (fun p => p == "/repo/src/foo.txt") =
      Except.ok (GotoOutcome.confirmed "/repo" "src/foo.txt" 11 0) := rfl

/-- Claim C5: refuted by the code.  When the backward scan finds the
`+++ b/f` file marker but never a hunk header, `hunk_line` is still `None`
and `re.match` is applied to it, raising `TypeError` instead of reporting
the `No hunk info` parse failure. -/
theorem c5_missing_header_type_error :
    gotoRun "--- a/f\n+++ b/f\n+added\n" 17 true false none none (fun _ => true) =
      Except.error PyError.typeError := rfl

/-- Claim C6: refuted by the code.  When the backward scan reaches the top of
the text without finding a `+++ b/` marker, `file_name` is still `None`; the
code nevertheless proceeds to path resolution and applies
`os.path.join`/`os.path.isfile` to `None`, raising `TypeError` instead of
returning a parse failure. -/
theorem c6_missing_marker_type_error :
    gotoRun "x\n@@ -1,2 +1,3 @@\n+a\n" 19 true false none none (fun _ => true) =
      Except.error PyError.typeError := rfl

/-- Claim C8: when the composed full path exists as a file, the resolution
step never prompts and goes straight to `on_path_confirmed`, which opens
exactly that composed path; when it does not exist, the input panel is always
shown, pre-filled with the candidate base (or the empty string) and captioned
with the unresolved relative path. -/
theorem c8_path_resolution (fname : String) (gitRootDir : Option String)
    (settings : String → Option String) (gl col : Int) (isfile : String → Bool) :
    (isfile (composedFullPath fname gitRootDir) = true →
      resolveStep fname gitRootDir isfile =
        ResolveOutcome.confirmedR (candidateBase gitRootDir) ∧
      (on_path_confirmed settings fname gl col (candidateBase gitRootDir)).openPath =
        composedFullPath fname gitRootDir) ∧
    (isfile (composedFullPath fname gitRootDir) = false →
      resolveStep fname gitRootDir isfile =
        ResolveOutcome.promptR (captionFor fname) (candidateBase gitRootDir)) := by
  have hopen : (on_path_confirmed settings fname gl col (candidateBase gitRootDir)).openPath =
      osPathJoin (candidateBase gitRootDir) fname := by
    unfold on_path_confirmed
    by_cases hs : settings "git_root_dir" = some (candidateBase gitRootDir)
    · rw [if_pos hs]
    · rw [if_neg hs]
  have hjoin : osPathJoin (candidateBase gitRootDir) fname =
      composedFullPath fname gitRootDir := by
    unfold candidateBase composedFullPath
    cases hg : pyTruthyOS gitRootDir with
    | true => simp
    | false =>
      simp only [Bool.false_eq_true, if_false]
      unfold osPathJoin
      by_cases hb : pyStartsWith fname "/"
      · rw [if_pos hb]
      · rw [if_neg hb, if_pos (show (("" == "") = true) from rfl)]
        rfl
  constructor
  · intro hf
    refine ⟨?_, by rw [hopen, hjoin]⟩
    unfold resolveStep
    rw [if_pos hf]
  · intro hf
    unfold resolveStep
    rw [if_neg (by rw [hf]; exact Bool.false_ne_true)]

/-- Witness for C8: an existing file resolves without a prompt, and a missing
file always prompts with the caption naming the relative path. -/
theorem c8_path_resolution_witness :
    resolveStep "a.txt" (some "/repo") (fun p => p == "/repo/a.txt") =
      ResolveOutcome.confirmedR "/repo" ∧
    resolveStep "a.txt" (some "/repo") (fun _ => false) =
      ResolveOutcome.promptR (captionFor "a.txt") "/repo" :=
  ⟨((c8_path_resolution "a.txt" (some "/repo") (fun _ => none) 0 0
      (fun p => p == "/repo/a.txt")).1 (by decide)).1,
    (c8_path_resolution "a.txt" (some "/repo") (fun _ => none) 0 0
      (fun _ => false)).2 rfl⟩

/-- Claim C9: `on_path_confirmed` writes the `git_root_dir` view setting
exactly when the confirmed base differs from the stored value; when they are
equal no write occurs, and in every case no key other than `git_root_dir` is
modified. -/
theorem c9_settings_write_iff_changed (settings : String → Option String)
    (fname : String) (gl col : Int) (root : String) :
    ((on_path_confirmed settings fname gl col root).wrote = true ↔
      settings "git_root_dir" ≠ some root) ∧
    (settings "git_root_dir" = some root →
      (on_path_confirmed settings fname gl col root).settings = settings) ∧
    (∀ k, k ≠ "git_root_dir" →
      (on_path_confirmed settings fname gl col root).settings k = settings k) := by
  unfold on_path_confirmed
  by_cases h : settings "git_root_dir" = some root
  · rw [if_pos h]
    refine ⟨by simp [h], fun _ => rfl, fun k _ => rfl⟩
  · rw [if_neg h]
    refine ⟨by simp [h], fun hcontra => absurd hcontra h, fun k hk => ?_⟩
    simp [hk]

/-- Witness for C9: a differing base is written; an identical base leaves the
settings function untouched; other keys are never modified. -/
theorem c9_settings_write_iff_changed_witness :
    (on_path_confirmed (fun _ => none) "a.txt" 0 0 "/r").wrote = true ∧
    (on_path_confirmed (fun _ => some "/r") "a.txt" 0 0 "/r").settings =
      (fun _ => some "/r") ∧
    (on_path_confirmed (fun _ => none) "a.txt" 0 0 "/r").settings "other" = none :=
  ⟨(c9_settings_write_iff_changed (fun _ => none) "a.txt" 0 0 "/r").1.mpr (by simp),
    (c9_settings_write_iff_changed (fun _ => some "/r") "a.txt" 0 0 "/r").2.1 rfl,
    (c9_settings_write_iff_changed (fun _ => none) "a.txt" 0 0 "/r").2.2 "other" (by decide)⟩

end GitSpec
